import Mathlib

/-
Shallow embedding of the Industrial-RAG-assistant retrieval pipeline:
`src/app/services/chat_engine.py` and `src/app/services/hybrid_retriever.py`.
Python floats are modelled as rationals, dictionaries as association lists,
exceptions as `Except` values, and the mutable per-session search counter as
an explicit `String → ℕ` state threaded through `retrieve`.
-/

namespace IndustrialRAG

/-- Values stored in Python dictionaries (document/row metadata). -/
inductive PyVal where
  | none
  | bool (b : Bool)
  | str (s : String)
  | num (q : ℚ)
  deriving DecidableEq, Repr, Inhabited

/-- Python truthiness of a value (used by `row.get(...) or ""`). -/
def pyTruthy : PyVal → Bool
  | .none => false
  | .bool b => b
  | .str s => s ≠ ""
  | .num q => q ≠ 0

/-- Rendering of a value inside a Python f-string. -/
def pvToStr : PyVal → String
  | .none => "None"
  | .bool b => if b then "True" else "False"
  | .str s => s
  | .num q => toString q

/-- A Python dictionary with string keys, as an association list. -/
abbrev PyDict := List (String × PyVal)

/-- Python `d.get(k)`: the value stored at `k`, if present. -/
def dget (m : PyDict) (k : String) : Option PyVal :=
  (m.find? (fun kv => kv.1 == k)).map (fun kv => kv.2)

/-- Python `d[k] = v`: replace the value at an existing key in place, else append. -/
def dset (m : PyDict) (k : String) (v : PyVal) : PyDict :=
  if m.any (fun kv => kv.1 == k) then
    m.map (fun kv => if kv.1 == k then (kv.1, v) else kv)
  else
    m ++ [(k, v)]

/-- Python `base.update(upd)`: set every key of `upd` (in order) in `base`. -/
def dupdate (base upd : PyDict) : PyDict :=
  upd.foldl (fun acc kv => dset acc kv.1 kv.2) base

/-- A LangChain `Document`: page content plus a metadata dictionary. -/
structure Document where
  page_content : PyVal
  metadata : PyDict
  deriving DecidableEq, Repr, Inhabited

/-- Typed errors of `app/core/exceptions.py` that the claims mention. -/
inductive RAGError where
  | embeddingError
  | retrievalError
  | llmError
  deriving DecidableEq, Repr

/-- A row returned by the Supabase RPC call in
`SupabaseRPCRetriever._get_relevant_documents`: optional `id`, `similarity`,
a row-level `metadata` dictionary (present only when it is a dict, matching
the `isinstance(row["metadata"], dict)` guard) and the content field. -/
structure Row where
  id : Option PyVal
  similarity : Option ℚ
  metadata : Option PyDict
  content : Option PyVal
  deriving DecidableEq, Repr, Inhabited

namespace ChatEngine

/-- Mapping of one RPC row at 0-based index `idx` to a `Document`
(`chat_engine.py` lines 106-121): base metadata `id`/`similarity`/`rank`,
then `metadata.update(row["metadata"])` when the row carries a dict. -/
def rowToDocument (idx : ℕ) (row : Row) : Document :=
  let similarity : ℚ := row.similarity.getD 0
  let base : PyDict :=
    [("id", row.id.getD PyVal.none),
     ("similarity", PyVal.num similarity),
     ("rank", PyVal.num ((idx : ℚ) + 1))]
  let metadata :=
    match row.metadata with
    | some md => dupdate base md
    | Option.none => base
  let pc :=
    match row.content with
    | some v => if pyTruthy v then v else PyVal.str ""
    | Option.none => PyVal.str ""
  ⟨pc, metadata⟩

/-- The successful branch of `SupabaseRPCRetriever._get_relevant_documents`:
map each returned row, in order, to a `Document`. -/
def getRelevantDocuments (rows : List Row) : List Document :=
  rows.enum.map (fun p => rowToDocument p.1 p.2)

/-- Full `SupabaseRPCRetriever._get_relevant_documents` with its error
translation: an embedding failure raises `EmbeddingException`, a failure of
the RPC call raises `RetrievalException` (lines 89-129).  The outcomes of the
two external calls are passed in explicitly. -/
def getRelevantDocumentsE (embedOk : Bool) (rpcOutcome : Except Unit (List Row)) :
    Except RAGError (List Document) :=
  if !embedOk then .error .embeddingError
  else
    match rpcOutcome with
    | .error _ => .error .retrievalError
    | .ok rows => .ok (getRelevantDocuments rows)

/-- Python `round(x, 4)`: round to 4 decimal places. -/
def round4 (q : ℚ) : ℚ := ((round (q * 10000) : ℤ) : ℚ) / 10000

/-- The similarity extracted from a document with a default for a missing
key: `doc.metadata.get("similarity", default)`. -/
def simOrDefault (dflt : ℚ) (d : Document) : ℚ :=
  match dget d.metadata "similarity" with
  | some (PyVal.num q) => q
  | _ => dflt

/-- True when the metadata holds a numeric value under `"similarity"`. -/
def simPresent (d : Document) : Bool :=
  match dget d.metadata "similarity" with
  | some (PyVal.num _) => true
  | _ => false

/-- True when the `"similarity"` key is absent or holds a numeric value. -/
def simOk (d : Document) : Bool :=
  match dget d.metadata "similarity" with
  | some (PyVal.num _) => true
  | Option.none => true
  | _ => false

/-- `calculate_confidence_score` of `chat_engine.py` (lines 132-153):
empty list scores 0, otherwise the weighted average of the similarities
(default 0.0) with weights `1/(i+1)`, rounded to 4 decimal places. -/
def calculate_confidence_score (retrieved_docs : List Document) : ℚ :=
  if retrieved_docs.isEmpty then 0
  else
    let similarities := retrieved_docs.map (simOrDefault 0)
    let weights := (List.range similarities.length).map (fun (i : ℕ) => (1 : ℚ) / ((i : ℚ) + 1))
    let weighted_sum := ((similarities.zip weights).map (fun p => p.1 * p.2)).sum
    let total_weight := weights.sum
    let confidence := if 0 < total_weight then weighted_sum / total_weight else 0
    round4 confidence

/-- The citation string built for one document by `format_sources` of
`chat_engine.py` (lines 169-177): with a page number present the f-string
rendering, otherwise the raw `source` value itself. -/
def render (d : Document) : PyVal :=
  let source := (dget d.metadata "source").getD (PyVal.str "Unknown")
  let page :=
    match dget d.metadata "page" with
    | some v => v
    | Option.none => (dget d.metadata "page_number").getD PyVal.none
  match page with
  | PyVal.none => source
  | v => PyVal.str (pvToStr source ++ " - Page " ++ pvToStr v)

/-- The dedup loop of `format_sources`: keep a rendered string only when it
was not seen before. -/
def formatSourcesGo : List Document → List PyVal → List PyVal
  | [], _ => []
  | d :: ds, seen =>
    let s := render d
    if s ∈ seen then formatSourcesGo ds seen
    else s :: formatSourcesGo ds (s :: seen)

/-- `format_sources` of `chat_engine.py` (lines 156-184). -/
def format_sources (retrieved_docs : List Document) : List PyVal :=
  formatSourcesGo retrieved_docs []

end ChatEngine

namespace HybridRetriever

/-- Configuration of a `HybridRetriever` instance together with the module
flag `ENABLE_WEB_SEARCH` and the truthiness of the lazily loaded `self.ddg`. -/
structure HRConfig where
  enableWebSearch : Bool
  ddgAvailable : Bool
  maxSearches : ℕ
  minConfidence : ℚ
  deriving DecidableEq, Repr

/-- The mutable `self.search_count` dictionary, with `get(session_id, 0)`
semantics built in. -/
abbrev Counts := String → ℕ

/-- `_can_search_web` (lines 245-253): budget check `count < max_searches`. -/
def can_search_web (cfg : HRConfig) (counts : Counts) (sessionId : String) : Bool :=
  decide (counts sessionId < cfg.maxSearches)

/-- `_increment_search_count` (lines 255-257). -/
def incrementSearchCount (counts : Counts) (sessionId : String) : Counts :=
  fun s => if s = sessionId then counts s + 1 else counts s

/-- `_get_remaining_searches` (lines 259-261): `max(0, max_searches - count)`,
which on ℕ is truncated subtraction. -/
def remainingSearches (cfg : HRConfig) (counts : Counts) (sessionId : String) : ℕ :=
  cfg.maxSearches - counts sessionId

/-- One result returned by the DuckDuckGo text search. -/
structure WebResult where
  title : Option String
  body : Option String
  href : Option String
  deriving DecidableEq, Repr

/-- The `Document` built for the web result at 0-based index `idx`
(`_search_web` lines 154-165): synthetic similarity `0.6 - 0.05*idx`. -/
def webResultToDoc (idx : ℕ) (r : WebResult) : Document :=
  ⟨PyVal.str ((r.title.getD "") ++ "\n\n" ++ (r.body.getD "")),
   [("source", PyVal.str "web"),
    ("url", PyVal.str (r.href.getD "")),
    ("title", PyVal.str (r.title.getD "")),
    ("similarity", PyVal.num ((6 : ℚ)/10 - (idx : ℚ) * (5/100))),
    ("rank", PyVal.num ((idx : ℚ) + 1))]⟩

/-- `_search_web` (lines 134-171): empty when the client is unavailable,
empty when the external search fails (the exception is absorbed), else the
results mapped in order to synthetic documents. -/
def search_web (cfg : HRConfig) (webOutcome : Except Unit (List WebResult)) :
    List Document :=
  if !cfg.ddgAvailable then []
  else
    match webOutcome with
    | .error _ => []
    | .ok results => results.enum.map (fun p => webResultToDoc p.1 p.2)

/-- `_search_local` (lines 125-132): the `except Exception` clause turns any
failure of the local retriever, whatever its type, into an empty list. -/
def search_local (localOutcome : Except RAGError (List Document)) : List Document :=
  match localOutcome with
  | .ok docs => docs
  | .error _ => []

/-- `_merge_documents` (lines 173-195): local documents first, then at most
the first 3 web documents. -/
def merge_documents (localDocs webDocs : List Document) : List Document :=
  localDocs ++ webDocs.take 3

/-- `_calculate_confidence` (lines 197-214): like the chat-engine scorer but
with default similarity 0.5 for a missing key. -/
def calculate_confidence (docs : List Document) : ℚ :=
  if docs.isEmpty then 0
  else
    let similarities := docs.map (ChatEngine.simOrDefault (1/2))
    let weights := (List.range similarities.length).map (fun (i : ℕ) => (1 : ℚ) / ((i : ℚ) + 1))
    let weighted_sum := ((similarities.zip weights).map (fun p => p.1 * p.2)).sum
    let total_weight := weights.sum
    let confidence := if 0 < total_weight then weighted_sum / total_weight else 0
    ChatEngine.round4 confidence

/-- The citation string built for one document by `_format_sources`
(lines 221-237): web documents render title and possibly truncated url,
local documents render source and optional page. -/
def renderSource (d : Document) : String :=
  let m := d.metadata
  if dget m "source" = some (PyVal.str "web") then
    let title := pvToStr ((dget m "title").getD (PyVal.str "Web Source"))
    let url := pvToStr ((dget m "url").getD (PyVal.str ""))
    let base := "🌐 " ++ title
    if url ≠ "" then
      if url.length > 50 then base ++ " (" ++ (url.take 50) ++ "...)"
      else base ++ " (" ++ url ++ ")"
    else base
  else
    let source := pvToStr ((dget m "source").getD (PyVal.str "Unknown"))
    let page :=
      match dget m "page" with
      | some v => v
      | Option.none => (dget m "page_number").getD PyVal.none
    let base := "📄 " ++ source
    match page with
    | PyVal.none => base
    | v => base ++ " - Page " ++ pvToStr v

/-- The dedup loop of `_format_sources` (lines 239-241). -/
def formatSourcesGo : List Document → List String → List String
  | [], _ => []
  | d :: ds, seen =>
    let s := renderSource d
    if s ∈ seen then formatSourcesGo ds seen
    else s :: formatSourcesGo ds (s :: seen)

/-- `_format_sources` (lines 216-243). -/
def format_sources (docs : List Document) : List String :=
  formatSourcesGo docs []

/-- The dictionary returned by `HybridRetriever.retrieve` (lines 117-123). -/
structure RetrievalResult where
  documents : List Document
  confidence_score : ℚ
  sources : List String
  web_search_used : Bool
  web_searches_remaining : ℕ
  deriving DecidableEq, Repr

/-- `HybridRetriever.retrieve` (lines 65-123).  The outcomes of the two
external calls (local retriever, web search) are passed in explicitly; the
mutable `search_count` state comes in as `counts` and goes out updated. -/
def retrieve (cfg : HRConfig) (counts : Counts)
    (localOutcome : Except RAGError (List Document))
    (webOutcome : Except Unit (List WebResult))
    (sessionId : String) : RetrievalResult × Counts :=
  let localDocs := search_local localOutcome
  let localConfidence := calculate_confidence localDocs
  let shouldSearchWeb :=
    cfg.enableWebSearch && cfg.ddgAvailable && can_search_web cfg counts sessionId &&
      (decide (localConfidence < cfg.minConfidence) || localDocs.isEmpty)
  let webDocs := if shouldSearchWeb then search_web cfg webOutcome else []
  let counts' := if shouldSearchWeb then incrementSearchCount counts sessionId else counts
  let allDocs := merge_documents localDocs webDocs
  let finalConfidence := calculate_confidence allDocs
  let sources := format_sources allDocs
  (⟨allDocs, finalConfidence, sources, shouldSearchWeb,
    remainingSearches cfg counts' sessionId⟩, counts')

end HybridRetriever

namespace ChatEngine

/-- The canned no-documents answer of `get_chat_response` (line 263). -/
def cannedAnswer : String :=
  "I couldn\x27t find relevant information in the warehouse automation documentation to answer your question. Could you please rephrase or ask about warehouse control systems, conveyor systems, or automation protocols?"

/-- The dictionary returned by `get_chat_response`. -/
structure ChatResponse where
  answer : String
  sources : List PyVal
  confidence_score : ℚ
  retrieved_chunks : ℕ
  web_search_used : Bool
  web_searches_remaining : ℕ
  deriving DecidableEq, Repr

/-- `get_chat_response` (lines 187-330).  A fresh `HybridRetriever` with
`max_searches_per_session=5` and threshold 0.5 and an empty `search_count`
is built inside the call; `enableWebSearch`/`ddgAvailable` come from the
environment (`envCfg`).  The external outcomes (local retrieval, web search,
answer generation) are passed in explicitly; `useHybrid` is the
`use_hybrid_retrieval` flag and `hybridImportOk` is false exactly when
importing the hybrid retriever raises `ImportError`. -/
def get_chat_response (envCfg : HybridRetriever.HRConfig)
    (useHybrid : Bool) (hybridImportOk : Bool)
    (localOutcome : Except RAGError (List Document))
    (webOutcome : Except Unit (List HybridRetriever.WebResult))
    (answerOutcome : Except Unit String)
    (sessionId : String) : Except RAGError ChatResponse :=
  let cfg : HybridRetriever.HRConfig :=
    { envCfg with maxSearches := 5, minConfidence := 1/2 }
  let step : Except RAGError (List Document × ℚ × List PyVal × Bool × ℕ) :=
    if useHybrid then
      if hybridImportOk then
        let r := HybridRetriever.retrieve cfg (fun _ => 0) localOutcome webOutcome sessionId
        .ok (r.1.documents, r.1.confidence_score, r.1.sources.map PyVal.str,
             r.1.web_search_used, r.1.web_searches_remaining)
      else
        match localOutcome with
        | .error e => .error e
        | .ok docs =>
          .ok (docs, calculate_confidence_score docs, format_sources docs, false, 5)
    else
      match localOutcome with
      | .error e => .error e
      | .ok docs =>
        .ok (docs, calculate_confidence_score docs, format_sources docs, false, 5)
  match step with
  | .error e => .error e
  | .ok (docs, confidence, sources, webUsed, webRemaining) =>
    if docs.isEmpty then
      .ok ⟨cannedAnswer, [], 0, 0, false, webRemaining⟩
    else
      match answerOutcome with
      | .error _ => .error .llmError
      | .ok ans => .ok ⟨ans, sources, confidence, docs.length, webUsed, webRemaining⟩

end ChatEngine

end IndustrialRAG

namespace IndustrialRAG

/-- First-occurrence deduplication: keep each value the first time it
appears, dropping all later repetitions, preserving first-seen order. -/
def dedupFirst : List PyVal → List PyVal
  | [] => []
  | x :: xs => x :: dedupFirst (xs.filter (fun y => decide (y ≠ x)))
termination_by l => l.length
decreasing_by
  simp_wf
  exact Nat.lt_succ_of_le (List.length_filter_le _ _)

/-- Weighted similarity sum: the element at 0-based offset `i` of the full
list contributes with weight `1/(i+1)`. -/
def wsum : List ℚ → ℕ → ℚ
  | [], _ => 0
  | x :: rest, i => x * (1 / ((i : ℚ) + 1)) + wsum rest (i + 1)

/-- Total harmonic weight of `n` consecutive positions starting at offset `i`. -/
def tw : ℕ → ℕ → ℚ
  | 0, _ => 0
  | n + 1, i => 1 / ((i : ℚ) + 1) + tw n (i + 1)

theorem wsum_zip (sims : List ℚ) : ∀ s : ℕ,
    ((sims.zip ((List.range' s sims.length).map fun (i : ℕ) => (1 : ℚ) / ((i : ℚ) + 1))).map
      (fun p => p.1 * p.2)).sum = wsum sims s := by
  induction sims with
  | nil => intro s; simp [wsum]
  | cons x rest ih =>
    intro s
    simp only [List.length_cons, List.range'_succ, List.map_cons, List.zip_cons_cons,
      List.sum_cons, wsum]
    rw [ih (s + 1)]

theorem tw_range' : ∀ (n s : ℕ),
    ((List.range' s n).map fun (i : ℕ) => (1 : ℚ) / ((i : ℚ) + 1)).sum = tw n s := by
  intro n
  induction n with
  | zero => intro s; simp [tw]
  | succ m ih =>
    intro s
    simp only [List.range'_succ, List.map_cons, List.sum_cons, tw]
    rw [ih (s + 1)]

theorem tw_nonneg : ∀ (n s : ℕ), 0 ≤ tw n s := by
  intro n
  induction n with
  | zero => intro s; simp [tw]
  | succ m ih =>
    intro s
    have h1 : (0 : ℚ) ≤ 1 / ((s : ℚ) + 1) := by positivity
    have h2 := ih (s + 1)
    simp only [tw]
    linarith

theorem tw_pos (n s : ℕ) (h : 0 < n) : 0 < tw n s := by
  obtain ⟨m, rfl⟩ : ∃ m, n = m + 1 := ⟨n - 1, by omega⟩
  have h1 : (0 : ℚ) < 1 / ((s : ℚ) + 1) := by positivity
  have h2 := tw_nonneg m (s + 1)
  simp only [tw]
  linarith

theorem wsum_nonneg : ∀ (sims : List ℚ) (s : ℕ), (∀ x ∈ sims, 0 ≤ x) → 0 ≤ wsum sims s := by
  intro sims
  induction sims with
  | nil => intro s _; simp [wsum]
  | cons x rest ih =>
    intro s h
    have hx : 0 ≤ x := h x (List.mem_cons_self _ _)
    have hw : (0 : ℚ) ≤ 1 / ((s : ℚ) + 1) := by positivity
    have h2 := ih (s + 1) (fun y hy => h y (List.mem_cons_of_mem _ hy))
    simp only [wsum]
    nlinarith

theorem wsum_le_tw : ∀ (sims : List ℚ) (s : ℕ), (∀ x ∈ sims, x ≤ 1) →
    wsum sims s ≤ tw sims.length s := by
  intro sims
  induction sims with
  | nil => intro s _; simp [wsum, tw]
  | cons x rest ih =>
    intro s h
    have hx : x ≤ 1 := h x (List.mem_cons_self _ _)
    have hw : (0 : ℚ) ≤ 1 / ((s : ℚ) + 1) := by positivity
    have h2 := ih (s + 1) (fun y hy => h y (List.mem_cons_of_mem _ hy))
    simp only [wsum, tw, List.length_cons]
    nlinarith

theorem wsum_append (l₁ l₂ : List ℚ) : ∀ s : ℕ,
    wsum (l₁ ++ l₂) s = wsum l₁ s + wsum l₂ (s + l₁.length) := by
  induction l₁ with
  | nil => intro s; simp [wsum]
  | cons x rest ih =>
    intro s
    have hidx : s + 1 + rest.length = s + (rest.length + 1) := by omega
    simp only [List.cons_append, wsum, List.length_cons, List.append_eq, ih, hidx]
    ring

theorem round4_mono {a b : ℚ} (h : a ≤ b) : ChatEngine.round4 a ≤ ChatEngine.round4 b := by
  unfold ChatEngine.round4
  have h1 : round (a * 10000) ≤ round (b * 10000) := by
    rw [round_eq, round_eq]
    exact Int.floor_mono (by linarith)
  have h2 : ((round (a * 10000) : ℤ) : ℚ) ≤ ((round (b * 10000) : ℤ) : ℚ) := by
    exact_mod_cast h1
  rw [div_eq_mul_inv, div_eq_mul_inv]
  exact mul_le_mul_of_nonneg_right h2 (by norm_num)

theorem round4_zero : ChatEngine.round4 0 = 0 := by
  simp [ChatEngine.round4]

theorem round4_one : ChatEngine.round4 1 = 1 := by
  unfold ChatEngine.round4
  rw [one_mul, show ((10000 : ℚ)) = ((10000 : ℕ) : ℚ) by norm_num, round_natCast]
  norm_num

theorem calculate_confidence_eq (docs : List Document) (h : docs ≠ []) :
    HybridRetriever.calculate_confidence docs =
      ChatEngine.round4
        (wsum (docs.map (ChatEngine.simOrDefault (1/2))) 0 / tw docs.length 0) := by
  obtain ⟨d, ds, rfl⟩ : ∃ d ds, docs = d :: ds := by
    cases docs with
    | nil => exact absurd rfl h
    | cons d ds => exact ⟨d, ds, rfl⟩
  unfold HybridRetriever.calculate_confidence
  simp only [List.isEmpty_cons, Bool.false_eq_true, if_false, List.range_eq_range']
  rw [wsum_zip, tw_range']
  have hpos : 0 < tw ((d :: ds).map (ChatEngine.simOrDefault (1/2))).length 0 :=
    tw_pos _ _ (by simp)
  rw [if_pos hpos]
  simp [List.length_map]

theorem calculate_confidence_score_eq (docs : List Document) (h : docs ≠ []) :
    ChatEngine.calculate_confidence_score docs =
      ChatEngine.round4
        (wsum (docs.map (ChatEngine.simOrDefault 0)) 0 / tw docs.length 0) := by
  obtain ⟨d, ds, rfl⟩ : ∃ d ds, docs = d :: ds := by
    cases docs with
    | nil => exact absurd rfl h
    | cons d ds => exact ⟨d, ds, rfl⟩
  unfold ChatEngine.calculate_confidence_score
  simp only [List.isEmpty_cons, Bool.false_eq_true, if_false, List.range_eq_range']
  rw [wsum_zip, tw_range']
  have hpos : 0 < tw ((d :: ds).map (ChatEngine.simOrDefault 0)).length 0 :=
    tw_pos _ _ (by simp)
  rw [if_pos hpos]
  simp [List.length_map]

end IndustrialRAG

namespace IndustrialRAG

theorem enumFrom_wsum (f : Document → ℚ) (docs : List Document) : ∀ s : ℕ,
    ((List.enumFrom s docs).map (fun p => f p.2 * ((1 : ℚ) / ((p.1 : ℚ) + 1)))).sum
      = wsum (docs.map f) s := by
  induction docs with
  | nil => intro s; simp [wsum]
  | cons d ds ih =>
    intro s
    simp only [List.enumFrom, List.map_cons, List.sum_cons, wsum]
    rw [ih (s + 1)]

theorem enumFrom_tw (docs : List Document) : ∀ s : ℕ,
    ((List.enumFrom s docs).map (fun p => (1 : ℚ) / ((p.1 : ℚ) + 1))).sum
      = tw docs.length s := by
  induction docs with
  | nil => intro s; simp [tw]
  | cons d ds ih =>
    intro s
    simp only [List.enumFrom, List.map_cons, List.sum_cons, tw, List.length_cons]
    rw [ih (s + 1)]

theorem dget_cons (a : String) (b : PyVal) (m : PyDict) (k : String) :
    dget ((a, b) :: m) k = if a = k then some b else dget m k := by
  by_cases h : a = k
  · subst h
    simp [dget, List.find?_cons]
  · simp [dget, List.find?_cons, h]

theorem dget_nil (k : String) : dget [] k = Option.none := rfl

theorem dget_append_left_none (m l : PyDict) (k : String) (h : dget m k = Option.none) :
    dget (m ++ l) k = dget l k := by
  induction m with
  | nil => simp
  | cons kv m ih =>
    obtain ⟨a, b⟩ := kv
    rw [dget_cons] at h
    by_cases hak : a = k
    · rw [if_pos hak] at h; exact absurd h (by simp)
    · rw [if_neg hak] at h
      rw [List.cons_append, dget_cons, if_neg hak]
      exact ih h

theorem dget_map_set_self (k : String) (v : PyVal) : ∀ m : PyDict,
    dget (m.map (fun kv => if kv.1 == k then (kv.1, v) else kv)) k =
      if m.any (fun kv => kv.1 == k) then some v else Option.none := by
  intro m
  induction m with
  | nil => simp [dget]
  | cons kv m ih =>
    obtain ⟨a, b⟩ := kv
    by_cases hak : a = k
    · subst hak
      simp only [List.map_cons, beq_self_eq_true, if_true, List.any_cons, Bool.true_or]
      rw [dget_cons, if_pos rfl]
    · have hbeq : ((a, b).1 == k) = false := by simp [hak]
      simp only [List.map_cons, hbeq, Bool.false_eq_true, if_false, List.any_cons,
        Bool.false_or]
      rw [dget_cons, if_neg hak, ih]

theorem dget_map_set_other (k : String) (v : PyVal) (k' : String) (h : k' ≠ k) :
    ∀ m : PyDict,
    dget (m.map (fun kv => if kv.1 == k then (kv.1, v) else kv)) k' = dget m k' := by
  intro m
  induction m with
  | nil => simp [dget]
  | cons kv m ih =>
    obtain ⟨a, b⟩ := kv
    by_cases hak : a = k
    · subst hak
      have hk' : a ≠ k' := fun hh => h (hh ▸ rfl)
      simp only [List.map_cons, beq_self_eq_true, if_true]
      rw [dget_cons, if_neg hk', dget_cons, if_neg hk', ih]
    · have hbeq : ((a, b).1 == k) = false := by simp [hak]
      simp only [List.map_cons, hbeq, Bool.false_eq_true, if_false]
      rw [dget_cons, dget_cons, ih]

theorem dget_none_of_any_false (k : String) : ∀ m : PyDict,
    m.any (fun kv => kv.1 == k) = false → dget m k = Option.none := by
  intro m
  induction m with
  | nil => intro _; rfl
  | cons kv m ih =>
    obtain ⟨a, b⟩ := kv
    intro hany
    simp only [List.any_cons, Bool.or_eq_false_iff] at hany
    have hak : a ≠ k := by simpa using hany.1
    rw [dget_cons, if_neg hak]
    exact ih hany.2

theorem dget_append_left_some (k : String) (w : PyVal) (l : PyDict) : ∀ m : PyDict,
    dget m k = some w → dget (m ++ l) k = some w := by
  intro m
  induction m with
  | nil => intro h; exact absurd h (by simp [dget])
  | cons kv m ih =>
    obtain ⟨a, b⟩ := kv
    intro h
    rw [dget_cons] at h
    by_cases hak : a = k
    · rw [if_pos hak] at h
      rw [List.cons_append, dget_cons, if_pos hak]
      exact h
    · rw [if_neg hak] at h
      rw [List.cons_append, dget_cons, if_neg hak]
      exact ih h

theorem dget_dset_self (m : PyDict) (k : String) (v : PyVal) :
    dget (dset m k v) k = some v := by
  by_cases hm : m.any (fun kv => kv.1 == k) = true
  · rw [dset, if_pos hm, dget_map_set_self, if_pos hm]
  · have hf : m.any (fun kv => kv.1 == k) = false := Bool.eq_false_iff.mpr hm
    rw [dset, if_neg hm]
    rw [dget_append_left_none _ _ _ (dget_none_of_any_false k m hf)]
    rw [dget_cons, if_pos rfl]

theorem dget_dset_other (m : PyDict) (k : String) (v : PyVal) (k' : String)
    (h : k' ≠ k) : dget (dset m k v) k' = dget m k' := by
  by_cases hm : m.any (fun kv => kv.1 == k) = true
  · rw [dset, if_pos hm, dget_map_set_other k v k' h]
  · rw [dset, if_neg hm]
    cases hk' : dget m k' with
    | none =>
      rw [dget_append_left_none _ _ _ hk', dget_cons, if_neg (Ne.symm h), dget_nil]
    | some w =>
      rw [dget_append_left_some k' w _ m hk']

end IndustrialRAG

namespace IndustrialRAG

theorem dupdate_nil (base : PyDict) : dupdate base [] = base := rfl

theorem dupdate_cons (base : PyDict) (a : String) (b : PyVal) (rest : PyDict) :
    dupdate base ((a, b) :: rest) = dupdate (dset base a b) rest := rfl

theorem dget_dupdate_absent (k : String) : ∀ (md base : PyDict),
    (∀ kv ∈ md, kv.1 ≠ k) → dget (dupdate base md) k = dget base k := by
  intro md
  induction md with
  | nil => intro base _; rfl
  | cons kv rest ih =>
    obtain ⟨a, b⟩ := kv
    intro base h
    have hka : k ≠ a := Ne.symm (h (a, b) (List.mem_cons_self _ _))
    rw [dupdate_cons, ih (dset base a b) (fun x hx => h x (List.mem_cons_of_mem _ hx)),
      dget_dset_other base a b k hka]

theorem dget_dupdate_present (k : String) (v : PyVal) : ∀ (md base : PyDict),
    (md.map Prod.fst).Nodup → dget md k = some v → dget (dupdate base md) k = some v := by
  intro md
  induction md with
  | nil => intro base _ h; exact absurd h (by simp [dget])
  | cons kv rest ih =>
    obtain ⟨a, b⟩ := kv
    intro base hnd h
    rw [dget_cons] at h
    rw [dupdate_cons]
    by_cases hak : a = k
    · rw [if_pos hak] at h
      have hb : b = v := Option.some.inj h
      have hnotin : a ∉ rest.map Prod.fst := (List.nodup_cons.mp hnd).1
      have habs : ∀ kv' ∈ rest, kv'.1 ≠ k := by
        intro kv' hm hkk
        apply hnotin
        have : kv'.1 ∈ rest.map Prod.fst := List.mem_map_of_mem Prod.fst hm
        rwa [hkk, ← hak] at this
      rw [dget_dupdate_absent k rest (dset base a b) habs, ← hak, ← hb]
      exact dget_dset_self base a b
    · rw [if_neg hak] at h
      exact ih (dset base a b) (List.nodup_cons.mp hnd).2 h

theorem dedupFirst_sublist (l : List PyVal) : List.Sublist (dedupFirst l) l := by
  generalize hn : l.length = n
  induction n using Nat.strong_induction_on generalizing l with
  | _ n ih =>
    cases l with
    | nil => simp [dedupFirst]
    | cons x xs =>
      rw [dedupFirst]
      refine List.Sublist.cons₂ x ?_
      have h1 : (xs.filter (fun y => decide (y ≠ x))).length < n := by
        have := List.length_filter_le (fun y => decide (y ≠ x)) xs
        simp only [List.length_cons] at hn
        omega
      exact (ih _ h1 _ rfl).trans (List.filter_sublist xs)

theorem dedupFirst_nodup (l : List PyVal) : (dedupFirst l).Nodup := by
  generalize hn : l.length = n
  induction n using Nat.strong_induction_on generalizing l with
  | _ n ih =>
    cases l with
    | nil => simp [dedupFirst]
    | cons x xs =>
      rw [dedupFirst]
      have h1 : (xs.filter (fun y => decide (y ≠ x))).length < n := by
        have := List.length_filter_le (fun y => decide (y ≠ x)) xs
        simp only [List.length_cons] at hn
        omega
      refine List.nodup_cons.mpr ⟨?_, ih _ h1 _ rfl⟩
      intro hx
      have hmem : x ∈ xs.filter (fun y => decide (y ≠ x)) :=
        (dedupFirst_sublist _).mem hx
      have := (List.mem_filter.mp hmem).2
      simp at this

theorem dedupFirst_complete (a : PyVal) (l : List PyVal) (h : a ∈ l) :
    a ∈ dedupFirst l := by
  generalize hn : l.length = n
  induction n using Nat.strong_induction_on generalizing l with
  | _ n ih =>
    cases l with
    | nil => exact absurd h (by simp)
    | cons x xs =>
      rw [dedupFirst]
      by_cases hax : a = x
      · exact hax ▸ List.mem_cons_self _ _
      · have hxs : a ∈ xs := by
          rcases List.mem_cons.mp h with h' | h'
          · exact absurd h' hax
          · exact h'
        have h1 : (xs.filter (fun y => decide (y ≠ x))).length < n := by
          have := List.length_filter_le (fun y => decide (y ≠ x)) xs
          simp only [List.length_cons] at hn
          omega
        refine List.mem_cons_of_mem x (ih _ h1 _ (List.mem_filter.mpr ⟨hxs, by simp [hax]⟩) rfl)

theorem filter_notMem_cons (a : PyVal) (seen : List PyVal) : ∀ l : List PyVal,
    l.filter (fun s => decide (s ∉ a :: seen)) =
      (l.filter (fun s => decide (s ∉ seen))).filter (fun s => decide (s ≠ a)) := by
  intro l
  induction l with
  | nil => rfl
  | cons x xs ih =>
    by_cases h1 : x = a
    · subst h1
      by_cases h2 : x ∈ seen <;> simp [List.filter_cons, h2, ih]
    · by_cases h2 : x ∈ seen <;> simp [List.filter_cons, h1, h2, ih]

theorem formatSourcesGo_eq (ds : List Document) : ∀ seen : List PyVal,
    ChatEngine.formatSourcesGo ds seen =
      dedupFirst ((ds.map ChatEngine.render).filter (fun s => decide (s ∉ seen))) := by
  induction ds with
  | nil => intro seen; simp [ChatEngine.formatSourcesGo, dedupFirst]
  | cons d ds ih =>
    intro seen
    by_cases h : ChatEngine.render d ∈ seen
    · simp only [ChatEngine.formatSourcesGo, if_pos h, List.map_cons, List.filter_cons]
      rw [ih seen]
      simp [h]
    · simp only [ChatEngine.formatSourcesGo, if_neg h, List.map_cons, List.filter_cons]
      have hd : decide (ChatEngine.render d ∉ seen) = true := by simp [h]
      rw [hd]
      simp only [if_true]
      rw [dedupFirst, ih (ChatEngine.render d :: seen), filter_notMem_cons]

theorem format_sources_eq_dedupFirst (docs : List Document) :
    ChatEngine.format_sources docs = dedupFirst (docs.map ChatEngine.render) := by
  rw [ChatEngine.format_sources, formatSourcesGo_eq]
  congr 1
  simp

theorem simOrDefault_of_present (d : Document) (hp : ChatEngine.simPresent d = true)
    (d₁ d₂ : ℚ) : ChatEngine.simOrDefault d₁ d = ChatEngine.simOrDefault d₂ d := by
  unfold ChatEngine.simPresent at hp
  unfold ChatEngine.simOrDefault
  cases hv : dget d.metadata "similarity" with
  | none => rw [hv] at hp; simp at hp
  | some v =>
    rw [hv] at hp
    cases v with
    | num q => rfl
    | none => simp at hp
    | bool b => simp at hp
    | str s => simp at hp

end IndustrialRAG

namespace IndustrialRAG

theorem round4_eval (q : ℚ) (n : ℤ) (h : q * 10000 = (n : ℚ)) :
    ChatEngine.round4 q = (n : ℚ) / 10000 := by
  unfold ChatEngine.round4
  rw [h, round_intCast]

theorem retrieve_eq_of_should_true (cfg : HybridRetriever.HRConfig)
    (counts : HybridRetriever.Counts) (lo : Except RAGError (List Document))
    (wo : Except Unit (List HybridRetriever.WebResult)) (sid : String)
    (h : (cfg.enableWebSearch && cfg.ddgAvailable &&
        HybridRetriever.can_search_web cfg counts sid &&
        (decide (HybridRetriever.calculate_confidence (HybridRetriever.search_local lo) <
            cfg.minConfidence) || (HybridRetriever.search_local lo).isEmpty)) = true) :
    HybridRetriever.retrieve cfg counts lo wo sid =
      (⟨HybridRetriever.merge_documents (HybridRetriever.search_local lo)
          (HybridRetriever.search_web cfg wo),
        HybridRetriever.calculate_confidence
          (HybridRetriever.merge_documents (HybridRetriever.search_local lo)
            (HybridRetriever.search_web cfg wo)),
        HybridRetriever.format_sources
          (HybridRetriever.merge_documents (HybridRetriever.search_local lo)
            (HybridRetriever.search_web cfg wo)),
        true,
        HybridRetriever.remainingSearches cfg
          (HybridRetriever.incrementSearchCount counts sid) sid⟩,
       HybridRetriever.incrementSearchCount counts sid) := by
  simp only [HybridRetriever.retrieve]
  rw [h]
  simp

theorem retrieve_eq_of_should_false (cfg : HybridRetriever.HRConfig)
    (counts : HybridRetriever.Counts) (lo : Except RAGError (List Document))
    (wo : Except Unit (List HybridRetriever.WebResult)) (sid : String)
    (h : (cfg.enableWebSearch && cfg.ddgAvailable &&
        HybridRetriever.can_search_web cfg counts sid &&
        (decide (HybridRetriever.calculate_confidence (HybridRetriever.search_local lo) <
            cfg.minConfidence) || (HybridRetriever.search_local lo).isEmpty)) = false) :
    HybridRetriever.retrieve cfg counts lo wo sid =
      (⟨HybridRetriever.merge_documents (HybridRetriever.search_local lo) [],
        HybridRetriever.calculate_confidence
          (HybridRetriever.merge_documents (HybridRetriever.search_local lo) []),
        HybridRetriever.format_sources
          (HybridRetriever.merge_documents (HybridRetriever.search_local lo) []),
        false,
        HybridRetriever.remainingSearches cfg counts sid⟩,
       counts) := by
  simp only [HybridRetriever.retrieve]
  rw [h]
  simp

/-- C4: the confidence scorer used by the hybrid orchestrator returns 0 on the
empty document list; on a non-empty list it returns the weighted average of the
per-document similarities (default 1/2 for a document whose metadata lacks a
numeric similarity), where the document at 0-based position i carries weight
1/(i+1), rounded to 4 decimal places. -/
theorem claim_c4_confidence_formula (docs : List Document) :
    HybridRetriever.calculate_confidence docs =
      if docs = [] then 0
      else ChatEngine.round4
        (((docs.enum.map
            (fun p => ChatEngine.simOrDefault (1/2) p.2 * ((1 : ℚ) / ((p.1 : ℚ) + 1)))).sum) /
         ((docs.enum.map (fun p => (1 : ℚ) / ((p.1 : ℚ) + 1))).sum)) := by
  cases docs with
  | nil => simp [HybridRetriever.calculate_confidence]
  | cons d ds =>
    rw [if_neg (by simp)]
    rw [calculate_confidence_eq _ (by simp)]
    have h1 := enumFrom_wsum (ChatEngine.simOrDefault (1/2)) (d :: ds) 0
    have h2 := enumFrom_tw (d :: ds) 0
    rw [show (d :: ds).enum = List.enumFrom 0 (d :: ds) from rfl, h1, h2]

/-- C7: the score of the empty document list is exactly 0, and for every
non-empty document list whose similarities (after the 1/2 default) respect the
data-model invariant of lying in [0,1], the score lies in [0,1]. -/
theorem claim_c7_score_bounds :
    HybridRetriever.calculate_confidence [] = 0 ∧
    ∀ docs : List Document, docs ≠ [] →
      (∀ d ∈ docs, 0 ≤ ChatEngine.simOrDefault (1/2) d ∧ ChatEngine.simOrDefault (1/2) d ≤ 1) →
      0 ≤ HybridRetriever.calculate_confidence docs ∧
        HybridRetriever.calculate_confidence docs ≤ 1 := by
  constructor
  · rfl
  · intro docs hne hbound
    rw [calculate_confidence_eq docs hne]
    have hs0 : ∀ x ∈ docs.map (ChatEngine.simOrDefault (1/2)), 0 ≤ x := by
      intro x hx
      obtain ⟨d, hd, rfl⟩ := List.mem_map.mp hx
      exact (hbound d hd).1
    have hs1 : ∀ x ∈ docs.map (ChatEngine.simOrDefault (1/2)), x ≤ 1 := by
      intro x hx
      obtain ⟨d, hd, rfl⟩ := List.mem_map.mp hx
      exact (hbound d hd).2
    have hlen : 0 < docs.length := List.length_pos.mpr hne
    have htw : 0 < tw docs.length 0 := tw_pos _ _ hlen
    have hws0 : 0 ≤ wsum (docs.map (ChatEngine.simOrDefault (1/2))) 0 :=
      wsum_nonneg _ 0 hs0
    have hws1 : wsum (docs.map (ChatEngine.simOrDefault (1/2))) 0 ≤
        tw (docs.map (ChatEngine.simOrDefault (1/2))).length 0 :=
      wsum_le_tw _ 0 hs1
    rw [List.length_map] at hws1
    constructor
    · have hq : 0 ≤ wsum (docs.map (ChatEngine.simOrDefault (1/2))) 0 / tw docs.length 0 :=
        div_nonneg hws0 (le_of_lt htw)
      calc (0 : ℚ) = ChatEngine.round4 0 := round4_zero.symm
        _ ≤ _ := round4_mono hq
    · have hq : wsum (docs.map (ChatEngine.simOrDefault (1/2))) 0 / tw docs.length 0 ≤ 1 :=
        (div_le_one htw).mpr hws1
      calc ChatEngine.round4 _ ≤ ChatEngine.round4 1 := round4_mono hq
        _ = 1 := round4_one

/-- Witness for C7 at a concrete one-document list. -/
theorem claim_c7_score_bounds_witness :
    0 ≤ HybridRetriever.calculate_confidence
        [⟨PyVal.str "t", [("similarity", PyVal.num (23/25))]⟩] ∧
      HybridRetriever.calculate_confidence
        [⟨PyVal.str "t", [("similarity", PyVal.num (23/25))]⟩] ≤ 1 :=
  claim_c7_score_bounds.2 _ (by simp)
    (by
      intro d hd
      rw [List.mem_singleton] at hd
      subst hd
      rw [show ChatEngine.simOrDefault (1/2)
          ⟨PyVal.str "t", [("similarity", PyVal.num (23/25))]⟩ = 23/25 from rfl]
      norm_num)

/-- C9: the chat-engine scorer and the hybrid scorer agree on every document
list in which each document carries a numeric similarity value; on a document
missing the key they return their respective defaults 0 and 1/2. -/
theorem claim_c9_scorer_equivalence :
    (∀ docs : List Document, (∀ d ∈ docs, ChatEngine.simPresent d = true) →
        ChatEngine.calculate_confidence_score docs = HybridRetriever.calculate_confidence docs) ∧
    ChatEngine.calculate_confidence_score [⟨PyVal.str "", []⟩] = 0 ∧
    HybridRetriever.calculate_confidence [⟨PyVal.str "", []⟩] = 1/2 := by
  refine ⟨?_, ?_, ?_⟩
  · intro docs h
    cases docs with
    | nil => rfl
    | cons d ds =>
      rw [calculate_confidence_score_eq _ (by simp), calculate_confidence_eq _ (by simp)]
      have hmap : (d :: ds).map (ChatEngine.simOrDefault 0) =
          (d :: ds).map (ChatEngine.simOrDefault (1/2)) :=
        List.map_congr_left (fun a ha => simOrDefault_of_present a (h a ha) 0 (1/2))
      rw [hmap]
  · rw [calculate_confidence_score_eq _ (by simp)]
    have hs : ChatEngine.simOrDefault 0 ⟨PyVal.str "", []⟩ = 0 := rfl
    have harg : wsum (([⟨PyVal.str "", []⟩] : List Document).map (ChatEngine.simOrDefault 0)) 0 /
        tw ([⟨PyVal.str "", []⟩] : List Document).length 0 = 0 := by
      simp [wsum, tw, hs]
    rw [harg, round4_zero]
  · rw [calculate_confidence_eq _ (by simp)]
    have hs : ChatEngine.simOrDefault (1/2) ⟨PyVal.str "", []⟩ = 1/2 := rfl
    have harg : wsum (([⟨PyVal.str "", []⟩] : List Document).map (ChatEngine.simOrDefault (1/2))) 0 /
        tw ([⟨PyVal.str "", []⟩] : List Document).length 0 = 1/2 := by
      simp [wsum, tw, hs]
      norm_num [hs]
    rw [harg, round4_eval (1/2) 5000 (by norm_num)]
    norm_num

/-- Witness for C9 at a concrete one-document list. -/
theorem claim_c9_scorer_equivalence_witness :
    ChatEngine.calculate_confidence_score
        [⟨PyVal.str "t", [("similarity", PyVal.num (23/25))]⟩] =
      HybridRetriever.calculate_confidence
        [⟨PyVal.str "t", [("similarity", PyVal.num (23/25))]⟩] :=
  claim_c9_scorer_equivalence.1 _ (by decide)

/-- C1 counterexample: with web search enabled and available, budget not
exhausted and empty local results, a failing web search still returns zero
web documents, but the call sets web_search_used and, contrary to the claim,
increments the session budget counter from 0 to 1. -/
theorem claim_c1_counterexample :
    (HybridRetriever.retrieve ⟨true, true, 5, 1/2⟩ (fun _ => 0) (.ok [])
        (.error ()) "default").1.documents = [] ∧
    (HybridRetriever.retrieve ⟨true, true, 5, 1/2⟩ (fun _ => 0) (.ok [])
        (.error ()) "default").1.web_search_used = true ∧
    (HybridRetriever.retrieve ⟨true, true, 5, 1/2⟩ (fun _ => 0) (.ok [])
        (.error ()) "default").2 "default" = 1 ∧
    ¬ ((HybridRetriever.retrieve ⟨true, true, 5, 1/2⟩ (fun _ => 0) (.ok [])
        (.error ()) "default").2 "default" = (fun (_ : String) => (0 : ℕ)) "default") := by
  have hloc : HybridRetriever.search_local (Except.ok ([] : List Document)) = [] := rfl
  have hdec : decide ((0 : ℕ) < 5) = true := rfl
  have h := retrieve_eq_of_should_true ⟨true, true, 5, 1/2⟩ (fun _ => 0) (.ok [])
    (.error ()) "default" (by simp [hloc, HybridRetriever.can_search_web, hdec])
  rw [h]
  refine ⟨?_, rfl, ?_, ?_⟩
  · simp [HybridRetriever.merge_documents, HybridRetriever.search_web, hloc]
  · simp [HybridRetriever.incrementSearchCount]
  · simp [HybridRetriever.incrementSearchCount]

/-- C1 corrected: on an eligible call whose web search step fails, retrieve
still returns successfully with zero web documents appended, but it does set
web_search_used and it does charge the budget: the session counter increases
by exactly one and the reported remaining budget reflects the charge. -/
theorem claim_c1_amended (cfg : HybridRetriever.HRConfig)
    (counts : HybridRetriever.Counts)
    (localOutcome : Except RAGError (List Document)) (sid : String)
    (hen : cfg.enableWebSearch = true) (hddg : cfg.ddgAvailable = true)
    (hbudget : counts sid < cfg.maxSearches)
    (htrig : HybridRetriever.calculate_confidence
        (HybridRetriever.search_local localOutcome) < cfg.minConfidence ∨
      HybridRetriever.search_local localOutcome = []) :
    (HybridRetriever.retrieve cfg counts localOutcome (.error ()) sid).1.documents =
        HybridRetriever.search_local localOutcome ∧
    (HybridRetriever.retrieve cfg counts localOutcome (.error ()) sid).1.web_search_used = true ∧
    (HybridRetriever.retrieve cfg counts localOutcome (.error ()) sid).2 sid = counts sid + 1 ∧
    (HybridRetriever.retrieve cfg counts localOutcome (.error ()) sid).1.web_searches_remaining =
      cfg.maxSearches - (counts sid + 1) := by
  have hcan : HybridRetriever.can_search_web cfg counts sid = true := by
    simp [HybridRetriever.can_search_web, hbudget]
  have hweb : HybridRetriever.search_web cfg (.error ()) = [] := by
    simp [HybridRetriever.search_web, hddg]
  have htrigb : (decide (HybridRetriever.calculate_confidence
      (HybridRetriever.search_local localOutcome) < cfg.minConfidence) ||
      (HybridRetriever.search_local localOutcome).isEmpty) = true := by
    rcases htrig with h | h
    · simp [h]
    · simp [h]
  refine ⟨?_, ?_, ?_, ?_⟩ <;>
    simp [HybridRetriever.retrieve, hen, hddg, hcan, htrigb, hweb,
      HybridRetriever.merge_documents, HybridRetriever.incrementSearchCount,
      HybridRetriever.remainingSearches]

/-- Witness for C1 corrected at concrete inputs. -/
theorem claim_c1_amended_witness :
    (HybridRetriever.retrieve ⟨true, true, 5, 1/2⟩ (fun _ => 0) (.ok [])
        (.error ()) "default").1.documents = HybridRetriever.search_local (.ok []) ∧
    (HybridRetriever.retrieve ⟨true, true, 5, 1/2⟩ (fun _ => 0) (.ok [])
        (.error ()) "default").1.web_search_used = true ∧
    (HybridRetriever.retrieve ⟨true, true, 5, 1/2⟩ (fun _ => 0) (.ok [])
        (.error ()) "default").2 "default" = (fun (_ : String) => (0 : ℕ)) "default" + 1 ∧
    (HybridRetriever.retrieve ⟨true, true, 5, 1/2⟩ (fun _ => 0) (.ok [])
        (.error ()) "default").1.web_searches_remaining =
      5 - ((fun (_ : String) => (0 : ℕ)) "default" + 1) :=
  claim_c1_amended ⟨true, true, 5, 1/2⟩ (fun _ => 0) (.ok []) "default"
    rfl rfl (by decide) (Or.inr rfl)

/-- C2 counterexample: an embedding error raised by the local retriever is
absorbed by the orchestrator, which returns the same successful result as for
an empty local document set instead of propagating the error. -/
theorem claim_c2_counterexample :
    HybridRetriever.search_local (.error .embeddingError) = [] ∧
    (HybridRetriever.retrieve ⟨true, true, 5, 1/2⟩ (fun _ => 0)
        (.error .embeddingError) (.ok []) "default").1 =
      (HybridRetriever.retrieve ⟨true, true, 5, 1/2⟩ (fun _ => 0)
        (.ok []) (.ok []) "default").1 :=
  ⟨rfl, rfl⟩

/-- C2 corrected: the orchestrator catches every failure of the local
retrieval step — embedding errors and retrieval errors alike — and treats it
as an empty local document set; the typed-error translation (embedding
failure to EmbeddingError, vector-store failure to RetrievalError) happens
inside the local retriever itself. -/
theorem claim_c2_amended :
    (∀ (cfg : HybridRetriever.HRConfig) (counts : HybridRetriever.Counts) (e : RAGError)
        (webOutcome : Except Unit (List HybridRetriever.WebResult)) (sid : String),
        HybridRetriever.retrieve cfg counts (.error e) webOutcome sid =
          HybridRetriever.retrieve cfg counts (.ok []) webOutcome sid) ∧
    (∀ rpcOutcome : Except Unit (List Row),
        ChatEngine.getRelevantDocumentsE false rpcOutcome = .error .embeddingError) ∧
    ChatEngine.getRelevantDocumentsE true (.error ()) = .error .retrievalError :=
  ⟨fun _ _ _ _ _ => rfl, fun _ => rfl, rfl⟩

end IndustrialRAG

namespace IndustrialRAG

/-- C5: the budget check admits a web search exactly when the session counter
is strictly below max_searches; once the counter has reached max_searches, any
further call reports web_search_used = false and web_searches_remaining = 0
and leaves the counter unchanged; and every call reports
web_searches_remaining = max(0, max_searches - search_count). -/
theorem claim_c5_budget_boundary :
    (∀ (cfg : HybridRetriever.HRConfig) (counts : HybridRetriever.Counts) (sid : String),
        HybridRetriever.can_search_web cfg counts sid = true ↔ counts sid < cfg.maxSearches) ∧
    (∀ (cfg : HybridRetriever.HRConfig) (counts : HybridRetriever.Counts)
        (lo : Except RAGError (List Document))
        (wo : Except Unit (List HybridRetriever.WebResult)) (sid : String),
        counts sid = cfg.maxSearches →
        (HybridRetriever.retrieve cfg counts lo wo sid).1.web_search_used = false ∧
        (HybridRetriever.retrieve cfg counts lo wo sid).1.web_searches_remaining = 0 ∧
        (HybridRetriever.retrieve cfg counts lo wo sid).2 sid = counts sid) ∧
    (∀ (cfg : HybridRetriever.HRConfig) (counts : HybridRetriever.Counts)
        (lo : Except RAGError (List Document))
        (wo : Except Unit (List HybridRetriever.WebResult)) (sid : String),
        ((HybridRetriever.retrieve cfg counts lo wo sid).1.web_searches_remaining : ℤ) =
          max 0 ((cfg.maxSearches : ℤ) -
            ((HybridRetriever.retrieve cfg counts lo wo sid).2 sid : ℤ))) := by
  refine ⟨?_, ?_, ?_⟩
  · intro cfg counts sid
    simp [HybridRetriever.can_search_web]
  · intro cfg counts lo wo sid h
    have hcan : HybridRetriever.can_search_web cfg counts sid = false := by
      simp [HybridRetriever.can_search_web, h]
    have hfalse : (cfg.enableWebSearch && cfg.ddgAvailable &&
        HybridRetriever.can_search_web cfg counts sid &&
        (decide (HybridRetriever.calculate_confidence (HybridRetriever.search_local lo) <
            cfg.minConfidence) || (HybridRetriever.search_local lo).isEmpty)) = false := by
      simp [hcan]
    rw [retrieve_eq_of_should_false _ _ _ _ _ hfalse]
    refine ⟨rfl, ?_, rfl⟩
    simp [HybridRetriever.remainingSearches, h]
  · intro cfg counts lo wo sid
    by_cases hb : (cfg.enableWebSearch && cfg.ddgAvailable &&
        HybridRetriever.can_search_web cfg counts sid &&
        (decide (HybridRetriever.calculate_confidence (HybridRetriever.search_local lo) <
            cfg.minConfidence) || (HybridRetriever.search_local lo).isEmpty)) = true
    · rw [retrieve_eq_of_should_true _ _ _ _ _ hb]
      simp only [HybridRetriever.remainingSearches]
      omega
    · rw [retrieve_eq_of_should_false _ _ _ _ _ (Bool.eq_false_iff.mpr hb)]
      simp only [HybridRetriever.remainingSearches]
      omega

/-- Witness for C5 at concrete inputs: a session at 4 of 5 may still search,
a session at 5 of 5 is refused, keeps its counter, and reports 0 remaining. -/
theorem claim_c5_budget_boundary_witness :
    (HybridRetriever.can_search_web ⟨true, true, 5, 1/2⟩ (fun _ => 4) "s" = true ↔ (4:ℕ) < 5) ∧
    ((HybridRetriever.retrieve ⟨true, true, 5, 1/2⟩ (fun _ => 5) (.ok []) (.ok [])
        "s").1.web_search_used = false ∧
      (HybridRetriever.retrieve ⟨true, true, 5, 1/2⟩ (fun _ => 5) (.ok []) (.ok [])
        "s").1.web_searches_remaining = 0 ∧
      (HybridRetriever.retrieve ⟨true, true, 5, 1/2⟩ (fun _ => 5) (.ok []) (.ok [])
        "s").2 "s" = (fun (_ : String) => (5 : ℕ)) "s") ∧
    ((HybridRetriever.retrieve ⟨true, true, 5, 1/2⟩ (fun _ => 0) (.ok []) (.ok [])
        "s").1.web_searches_remaining : ℤ) =
      max 0 (((5:ℕ) : ℤ) -
        ((HybridRetriever.retrieve ⟨true, true, 5, 1/2⟩ (fun _ => 0) (.ok []) (.ok [])
          "s").2 "s" : ℤ)) :=
  ⟨claim_c5_budget_boundary.1 ⟨true, true, 5, 1/2⟩ (fun _ => 4) "s",
   claim_c5_budget_boundary.2.1 ⟨true, true, 5, 1/2⟩ (fun _ => 5) (.ok []) (.ok []) "s" rfl,
   claim_c5_budget_boundary.2.2 ⟨true, true, 5, 1/2⟩ (fun _ => 0) (.ok []) (.ok []) "s"⟩

/-- C3 counterexample: a row whose row-level metadata carries rank 99 yields a
document whose metadata rank is 99, not the claimed 1-based position 1 — the
dict update lets row-level keys override the computed keys. -/
theorem claim_c3_counterexample :
    (ChatEngine.getRelevantDocuments
        [⟨some (PyVal.str "doc1"), some 1, some [("rank", PyVal.num 99)],
          some (PyVal.str "c")⟩]).map (fun d => dget d.metadata "rank") =
      [some (PyVal.num 99)] ∧
    ¬ ((ChatEngine.getRelevantDocuments
        [⟨some (PyVal.str "doc1"), some 1, some [("rank", PyVal.num 99)],
          some (PyVal.str "c")⟩]).map (fun d => dget d.metadata "rank") =
      [some (PyVal.num (((0:ℕ) : ℚ) + 1))]) := by
  have hval : (ChatEngine.getRelevantDocuments
      [⟨some (PyVal.str "doc1"), some 1, some [("rank", PyVal.num 99)],
        some (PyVal.str "c")⟩]).map (fun d => dget d.metadata "rank") =
      [some (PyVal.num 99)] := rfl
  refine ⟨hval, ?_⟩
  intro hEq
  rw [hval] at hEq
  simp only [List.cons.injEq, Option.some.injEq, PyVal.num.injEq, and_true] at hEq
  norm_num at hEq

/-- C3 corrected: the local retriever maps the row at 0-based index idx to the
document rowToDocument idx row; that document carries rank = idx+1 and the
row's similarity only when the row-level metadata does not itself contain the
key, because the dict update gives row-level keys precedence over the already
set id, similarity and rank. -/
theorem claim_c3_amended :
    (∀ (rows : List Row) (idx : ℕ) (row : Row), rows[idx]? = some row →
        (ChatEngine.getRelevantDocuments rows)[idx]? =
          some (ChatEngine.rowToDocument idx row)) ∧
    (∀ (idx : ℕ) (row : Row),
        (row.metadata = Option.none ∨
          ∃ md, row.metadata = some md ∧ ∀ kv ∈ md, kv.1 ≠ "rank") →
        dget (ChatEngine.rowToDocument idx row).metadata "rank" =
          some (PyVal.num ((idx : ℚ) + 1))) ∧
    (∀ (idx : ℕ) (row : Row),
        (row.metadata = Option.none ∨
          ∃ md, row.metadata = some md ∧ ∀ kv ∈ md, kv.1 ≠ "similarity") →
        dget (ChatEngine.rowToDocument idx row).metadata "similarity" =
          some (PyVal.num (row.similarity.getD 0))) ∧
    (∀ (idx : ℕ) (row : Row) (md : PyDict), row.metadata = some md →
        (md.map Prod.fst).Nodup → ∀ (k : String) (v : PyVal), dget md k = some v →
        dget (ChatEngine.rowToDocument idx row).metadata k = some v) := by
  refine ⟨?_, ?_, ?_, ?_⟩
  · intro rows idx row h
    unfold ChatEngine.getRelevantDocuments
    rw [List.getElem?_map, List.getElem?_enum, h]
    rfl
  · intro idx row h
    rcases h with h | ⟨md, hmd, habs⟩
    · simp only [ChatEngine.rowToDocument, h]
      rw [dget_cons, if_neg (by decide), dget_cons, if_neg (by decide), dget_cons, if_pos rfl]
    · simp only [ChatEngine.rowToDocument, hmd]
      rw [dget_dupdate_absent "rank" md _ habs]
      rw [dget_cons, if_neg (by decide), dget_cons, if_neg (by decide), dget_cons, if_pos rfl]
  · intro idx row h
    rcases h with h | ⟨md, hmd, habs⟩
    · simp only [ChatEngine.rowToDocument, h]
      rw [dget_cons, if_neg (by decide), dget_cons, if_pos rfl]
    · simp only [ChatEngine.rowToDocument, hmd]
      rw [dget_dupdate_absent "similarity" md _ habs]
      rw [dget_cons, if_neg (by decide), dget_cons, if_pos rfl]
  · intro idx row md hmd hnd k v hv
    simp only [ChatEngine.rowToDocument, hmd]
    exact dget_dupdate_present k v md _ hnd hv

/-- Witness for C3 corrected at a concrete row without key collisions. -/
theorem claim_c3_amended_witness :
    (ChatEngine.getRelevantDocuments
        [⟨some (PyVal.str "doc1"), some 1, some [("source", PyVal.str "test.pdf")],
          some (PyVal.str "c")⟩])[0]? =
      some (ChatEngine.rowToDocument 0
        ⟨some (PyVal.str "doc1"), some 1, some [("source", PyVal.str "test.pdf")],
          some (PyVal.str "c")⟩) ∧
    dget (ChatEngine.rowToDocument 0
        ⟨some (PyVal.str "doc1"), some 1, some [("source", PyVal.str "test.pdf")],
          some (PyVal.str "c")⟩).metadata "rank" = some (PyVal.num (((0:ℕ) : ℚ) + 1)) ∧
    dget (ChatEngine.rowToDocument 0
        ⟨some (PyVal.str "doc1"), some 1, some [("source", PyVal.str "test.pdf")],
          some (PyVal.str "c")⟩).metadata "similarity" =
      some (PyVal.num ((some (1:ℚ)).getD 0)) ∧
    dget (ChatEngine.rowToDocument 0
        ⟨some (PyVal.str "doc1"), some 1, some [("source", PyVal.str "test.pdf")],
          some (PyVal.str "c")⟩).metadata "source" = some (PyVal.str "test.pdf") :=
  ⟨claim_c3_amended.1 _ 0 _ rfl,
   claim_c3_amended.2.1 0 _ (Or.inr ⟨_, rfl, by decide⟩),
   claim_c3_amended.2.2.1 0 _ (Or.inr ⟨_, rfl, by decide⟩),
   claim_c3_amended.2.2.2 0 _ [("source", PyVal.str "test.pdf")] rfl (by decide)
     "source" (PyVal.str "test.pdf") rfl⟩

end IndustrialRAG

namespace IndustrialRAG

theorem wsum_swap_le_aux (M T : List ℚ) (x y : ℚ) (h : y ≤ x) (s : ℕ) :
    wsum (y :: (M ++ x :: T)) s ≤ wsum (x :: (M ++ y :: T)) s := by
  simp only [wsum]
  rw [wsum_append, wsum_append]
  simp only [wsum]
  have hab : (1:ℚ) / (((s + 1 + M.length : ℕ) : ℚ) + 1) ≤ 1 / ((s : ℚ) + 1) := by
    apply one_div_le_one_div_of_le
    · positivity
    · push_cast
      have : (0:ℚ) ≤ (M.length : ℚ) := Nat.cast_nonneg _
      linarith
  nlinarith [mul_nonneg (sub_nonneg.2 h) (sub_nonneg.2 hab)]

theorem wsum_swap_le (P M T : List ℚ) (x y : ℚ) (h : y ≤ x) :
    wsum (P ++ y :: (M ++ x :: T)) 0 ≤ wsum (P ++ x :: (M ++ y :: T)) 0 := by
  rw [wsum_append, wsum_append]
  have := wsum_swap_le_aux M T x y h (0 + P.length)
  linarith

/-- C6: for two document lists with the same similarity multiset differing
only by exchanging two documents, placing the higher-similarity document
earlier yields a greater-or-equal score; concretely the pair (0.95, 0.50)
scores strictly higher than (0.50, 0.95). -/
theorem claim_c6_front_weighting :
    (∀ (p m t : List Document) (d1 d2 : Document),
        ChatEngine.simOrDefault (1/2) d2 ≤ ChatEngine.simOrDefault (1/2) d1 →
        HybridRetriever.calculate_confidence (p ++ d2 :: (m ++ d1 :: t)) ≤
          HybridRetriever.calculate_confidence (p ++ d1 :: (m ++ d2 :: t))) ∧
    HybridRetriever.calculate_confidence
        [⟨PyVal.str "test", [("similarity", PyVal.num (1/2))]⟩,
         ⟨PyVal.str "test", [("similarity", PyVal.num (19/20))]⟩] <
      HybridRetriever.calculate_confidence
        [⟨PyVal.str "test", [("similarity", PyVal.num (19/20))]⟩,
         ⟨PyVal.str "test", [("similarity", PyVal.num (1/2))]⟩] := by
  constructor
  · intro p m t d1 d2 hle
    have hne1 : (p ++ d1 :: (m ++ d2 :: t)) ≠ [] := by simp
    have hne2 : (p ++ d2 :: (m ++ d1 :: t)) ≠ [] := by simp
    rw [calculate_confidence_eq _ hne2, calculate_confidence_eq _ hne1]
    have hlen : (p ++ d2 :: (m ++ d1 :: t)).length = (p ++ d1 :: (m ++ d2 :: t)).length := by
      simp
    rw [hlen]
    apply round4_mono
    have htw : 0 < tw (p ++ d1 :: (m ++ d2 :: t)).length 0 :=
      tw_pos _ _ (List.length_pos.mpr hne1)
    apply (div_le_div_iff_of_pos_right htw).mpr
    have hmap1 : (p ++ d2 :: (m ++ d1 :: t)).map (ChatEngine.simOrDefault (1/2)) =
        p.map (ChatEngine.simOrDefault (1/2)) ++ ChatEngine.simOrDefault (1/2) d2 ::
          (m.map (ChatEngine.simOrDefault (1/2)) ++ ChatEngine.simOrDefault (1/2) d1 ::
            t.map (ChatEngine.simOrDefault (1/2))) := by simp
    have hmap2 : (p ++ d1 :: (m ++ d2 :: t)).map (ChatEngine.simOrDefault (1/2)) =
        p.map (ChatEngine.simOrDefault (1/2)) ++ ChatEngine.simOrDefault (1/2) d1 ::
          (m.map (ChatEngine.simOrDefault (1/2)) ++ ChatEngine.simOrDefault (1/2) d2 ::
            t.map (ChatEngine.simOrDefault (1/2))) := by simp
    rw [hmap1, hmap2]
    exact wsum_swap_le _ _ _ _ _ hle
  · have h1 : ChatEngine.simOrDefault (1/2)
        ⟨PyVal.str "test", [("similarity", PyVal.num (19/20))]⟩ = 19/20 := rfl
    have h2 : ChatEngine.simOrDefault (1/2)
        ⟨PyVal.str "test", [("similarity", PyVal.num (1/2))]⟩ = 1/2 := rfl
    have e1 : HybridRetriever.calculate_confidence
        [⟨PyVal.str "test", [("similarity", PyVal.num (19/20))]⟩,
         ⟨PyVal.str "test", [("similarity", PyVal.num (1/2))]⟩] = 4/5 := by
      rw [calculate_confidence_eq _ (by simp)]
      have harg : wsum (([⟨PyVal.str "test", [("similarity", PyVal.num (19/20))]⟩,
          ⟨PyVal.str "test", [("similarity", PyVal.num (1/2))]⟩] : List Document).map
            (ChatEngine.simOrDefault (1/2))) 0 /
          tw ([⟨PyVal.str "test", [("similarity", PyVal.num (19/20))]⟩,
          ⟨PyVal.str "test", [("similarity", PyVal.num (1/2))]⟩] : List Document).length 0 =
          4/5 := by
        simp [wsum, tw, h1, h2]
        norm_num [h1, h2]
      rw [harg, round4_eval (4/5) 8000 (by norm_num)]
      norm_num
    have e2 : HybridRetriever.calculate_confidence
        [⟨PyVal.str "test", [("similarity", PyVal.num (1/2))]⟩,
         ⟨PyVal.str "test", [("similarity", PyVal.num (19/20))]⟩] = 13/20 := by
      rw [calculate_confidence_eq _ (by simp)]
      have harg : wsum (([⟨PyVal.str "test", [("similarity", PyVal.num (1/2))]⟩,
          ⟨PyVal.str "test", [("similarity", PyVal.num (19/20))]⟩] : List Document).map
            (ChatEngine.simOrDefault (1/2))) 0 /
          tw ([⟨PyVal.str "test", [("similarity", PyVal.num (1/2))]⟩,
          ⟨PyVal.str "test", [("similarity", PyVal.num (19/20))]⟩] : List Document).length 0 =
          13/20 := by
        simp [wsum, tw, h1, h2]
        norm_num [h1, h2]
      rw [harg, round4_eval (13/20) 6500 (by norm_num)]
      norm_num
    rw [e1, e2]
    norm_num

/-- Witness for C6 at a concrete exchanged pair. -/
theorem claim_c6_front_weighting_witness :
    HybridRetriever.calculate_confidence
        ([] ++ ⟨PyVal.str "test", [("similarity", PyVal.num (1/2))]⟩ ::
          ([] ++ ⟨PyVal.str "test", [("similarity", PyVal.num (19/20))]⟩ :: [])) ≤
      HybridRetriever.calculate_confidence
        ([] ++ ⟨PyVal.str "test", [("similarity", PyVal.num (19/20))]⟩ ::
          ([] ++ ⟨PyVal.str "test", [("similarity", PyVal.num (1/2))]⟩ :: [])) :=
  claim_c6_front_weighting.1 [] [] []
    ⟨PyVal.str "test", [("similarity", PyVal.num (19/20))]⟩
    ⟨PyVal.str "test", [("similarity", PyVal.num (1/2))]⟩
    (by
      rw [show ChatEngine.simOrDefault (1/2)
          ⟨PyVal.str "test", [("similarity", PyVal.num (1/2))]⟩ = 1/2 from rfl,
        show ChatEngine.simOrDefault (1/2)
          ⟨PyVal.str "test", [("similarity", PyVal.num (19/20))]⟩ = 19/20 from rfl]
      norm_num)

/-- C8: the chat-engine source formatter renders a document carrying a string
source and no page or page_number key as exactly the bare source string, and
on every input it returns the rendered strings deduplicated to their first
occurrence in first-seen order (so no two returned entries are equal). -/
theorem claim_c8_format_sources :
    (∀ (d : Document) (s : String),
        dget d.metadata "source" = some (PyVal.str s) →
        dget d.metadata "page" = Option.none →
        dget d.metadata "page_number" = Option.none →
        ChatEngine.render d = PyVal.str s) ∧
    (∀ docs : List Document,
        ChatEngine.format_sources docs = dedupFirst (docs.map ChatEngine.render) ∧
        (ChatEngine.format_sources docs).Nodup ∧
        List.Sublist (ChatEngine.format_sources docs) (docs.map ChatEngine.render) ∧
        ∀ d ∈ docs, ChatEngine.render d ∈ ChatEngine.format_sources docs) := by
  constructor
  · intro d s h1 h2 h3
    simp only [ChatEngine.render, h1, h2, h3]
    rfl
  · intro docs
    have he := format_sources_eq_dedupFirst docs
    refine ⟨he, he ▸ dedupFirst_nodup _, he ▸ dedupFirst_sublist _, ?_⟩
    intro d hd
    rw [he]
    exact dedupFirst_complete _ _ (List.mem_map_of_mem _ hd)

/-- Witness for C8 at a concrete page-less document. -/
theorem claim_c8_format_sources_witness :
    ChatEngine.render ⟨PyVal.str "test", [("source", PyVal.str "doc.pdf")]⟩ =
      PyVal.str "doc.pdf" :=
  claim_c8_format_sources.1 ⟨PyVal.str "test", [("source", PyVal.str "doc.pdf")]⟩
    "doc.pdf" rfl rfl rfl

/-- C10: whenever get_chat_response ends with zero retrieved documents it
reports web_search_used = false, even in a run where the hybrid retriever did
perform a (fruitless) web search and charged the session budget; the reported
web_searches_remaining still carries the charge (4 of 5 in the concrete run). -/
theorem claim_c10_zero_docs :
    (∀ (envCfg : HybridRetriever.HRConfig) (useHybrid hybridImportOk : Bool)
        (localOutcome : Except RAGError (List Document))
        (webOutcome : Except Unit (List HybridRetriever.WebResult))
        (answerOutcome : Except Unit String) (sid : String)
        (resp : ChatEngine.ChatResponse),
        ChatEngine.get_chat_response envCfg useHybrid hybridImportOk localOutcome
            webOutcome answerOutcome sid = .ok resp →
        resp.retrieved_chunks = 0 → resp.web_search_used = false) ∧
    (HybridRetriever.retrieve ⟨true, true, 5, 1/2⟩ (fun _ => 0) (.ok []) (.ok [])
        "s").1.web_search_used = true ∧
    ChatEngine.get_chat_response ⟨true, true, 5, 1/2⟩ true true (.ok []) (.ok [])
        (.ok "ans") "s" = .ok ⟨ChatEngine.cannedAnswer, [], 0, 0, false, 4⟩ := by
  have hloc : HybridRetriever.search_local (Except.ok ([] : List Document)) = [] := rfl
  have hdec : decide ((0 : ℕ) < 5) = true := rfl
  have hret := retrieve_eq_of_should_true ⟨true, true, 5, 1/2⟩ (fun _ => 0) (.ok [])
    (.ok ([] : List HybridRetriever.WebResult)) "s"
    (by simp [hloc, HybridRetriever.can_search_web, hdec])
  refine ⟨?_, ?_, ?_⟩
  · intro envCfg useHybrid hybridImportOk localOutcome webOutcome answerOutcome sid resp h hchunks
    simp only [ChatEngine.get_chat_response] at h
    split at h
    · exact Except.noConfusion h
    · split at h
      · injection h with h2
        subst h2
        rfl
      · split at h
        · exact Except.noConfusion h
        · injection h with h2
          subst h2
          rename_i docs confidence sources webUsed webRemaining heq hempty ans heq2
          simp only at hchunks
          have hd : docs = [] := List.length_eq_zero.mp hchunks
          rw [hd] at hempty
          simp at hempty
  · rw [hret]
  · simp only [ChatEngine.get_chat_response]
    rw [show ({ (⟨true, true, 5, 1/2⟩ : HybridRetriever.HRConfig) with
        maxSearches := 5, minConfidence := 1/2 } : HybridRetriever.HRConfig) =
      ⟨true, true, 5, 1/2⟩ from rfl]
    rw [hret]
    simp [HybridRetriever.merge_documents, HybridRetriever.search_web, hloc,
      HybridRetriever.remainingSearches, HybridRetriever.incrementSearchCount]

/-- Witness for C10: the concrete zero-document run of the third conjunct fed
through the first conjunct. -/
theorem claim_c10_zero_docs_witness :
    (⟨ChatEngine.cannedAnswer, [], 0, 0, false, 4⟩ :
        ChatEngine.ChatResponse).web_search_used = false :=
  claim_c10_zero_docs.1 ⟨true, true, 5, 1/2⟩ true true (.ok []) (.ok []) (.ok "ans") "s"
    ⟨ChatEngine.cannedAnswer, [], 0, 0, false, 4⟩ claim_c10_zero_docs.2.2 rfl

end IndustrialRAG
